import Mathlib

/-!
Shallow embedding of the signal-condition engine (src/signals.py,
src/strategy_config.py) and of the backtest execution engine
(src/backtest.py).  Prices, indicator values and volumes are modelled as
rationals, timestamps as naturals.  Pandas dataframes become lists of
records indexed by position; a boolean column becomes a Bool-valued
function of the row index; `shift(1)` becomes an explicit previous-row
lookup that is `none` at row 0 (pandas comparisons against the shifted
NaN are False, hence the `false` fallthrough).
-/

namespace DayTrading

/-- One input bar carrying the indicator columns read by signals.py. -/
structure Bar where
  SMA_20 : ℚ
  SMA_50 : ℚ
  SMA_200 : ℚ
  MACD : ℚ
  MACDs : ℚ
  RSI : ℚ
  Volume : ℚ
deriving DecidableEq

/-- The trend_mode argument of calculate_trend_filters. -/
inductive TrendMode
  | pullback
  | stacked
deriving DecidableEq

/-- The StrategyType enum from strategy_config.py. -/
inductive StrategyType
  | CURRENT
  | AGGRESSIVE
  | CONSERVATIVE
deriving DecidableEq

/-- The StrategyConfig dataclass fields consumed by generate_signals. -/
structure StrategyConfig where
  rsi_buy_threshold : ℚ
  rsi_sell_threshold : ℚ
  macd_require_zero_cross : Bool
  trend_confirmation_periods : ℕ
  indicators_required : ℕ
  use_volume_filter : Bool
  volume_lookback_periods : Option ℕ
deriving DecidableEq

/-- get_strategy_config from strategy_config.py (the three canonical profiles). -/
def get_strategy_config : StrategyType → StrategyConfig
  | .CURRENT =>
    { rsi_buy_threshold := 52, rsi_sell_threshold := 48,
      macd_require_zero_cross := true, trend_confirmation_periods := 1,
      indicators_required := 3, use_volume_filter := false,
      volume_lookback_periods := none }
  | .AGGRESSIVE =>
    { rsi_buy_threshold := 50, rsi_sell_threshold := 50,
      macd_require_zero_cross := false, trend_confirmation_periods := 1,
      indicators_required := 2, use_volume_filter := false,
      volume_lookback_periods := none }
  | .CONSERVATIVE =>
    { rsi_buy_threshold := 55, rsi_sell_threshold := 45,
      macd_require_zero_cross := true, trend_confirmation_periods := 3,
      indicators_required := 3, use_volume_filter := true,
      volume_lookback_periods := some 20 }

/-- Raw single-bar long trend condition of calculate_trend_filters
(false off the end of the series). -/
def trendLongRaw (mode : TrendMode) (data : List Bar) (i : ℕ) : Bool :=
  match data[i]? with
  | none => false
  | some b =>
    match mode with
    | .pullback => decide (b.SMA_50 > b.SMA_200) && decide (b.SMA_20 < b.SMA_50)
    | .stacked => decide (b.SMA_20 > b.SMA_50) && decide (b.SMA_50 > b.SMA_200)

/-- Raw single-bar short trend condition of calculate_trend_filters. -/
def trendShortRaw (mode : TrendMode) (data : List Bar) (i : ℕ) : Bool :=
  match data[i]? with
  | none => false
  | some b =>
    match mode with
    | .pullback => decide (b.SMA_50 < b.SMA_200) && decide (b.SMA_20 > b.SMA_50)
    | .stacked => decide (b.SMA_20 < b.SMA_50) && decide (b.SMA_50 < b.SMA_200)

/-- Rolling all-true test: pandas
`cond.rolling(window=w, min_periods=w).sum() == w` at row i, which is NaN
(hence compares False) while fewer than w rows are available. -/
def rollingAllTrue (c : ℕ → Bool) (w i : ℕ) : Bool :=
  decide (w ≤ i + 1) && (List.range w).all fun j => c (i - j)

/-- trend_long_ok column of calculate_trend_filters, including the
confirmation_periods branch. -/
def trend_long_ok (mode : TrendMode) (cp : ℕ) (data : List Bar) (i : ℕ) : Bool :=
  if 1 < cp then rollingAllTrue (trendLongRaw mode data) cp i
  else trendLongRaw mode data i

/-- trend_short_ok column of calculate_trend_filters. -/
def trend_short_ok (mode : TrendMode) (cp : ℕ) (data : List Bar) (i : ℕ) : Bool :=
  if 1 < cp then rollingAllTrue (trendShortRaw mode data) cp i
  else trendShortRaw mode data i

/-- Previous-row lookup, the embedding of `.shift(1)`: none at row 0. -/
def prevBar (data : List Bar) (i : ℕ) : Option Bar :=
  if i = 0 then none else data[i-1]?

/-- macd_up_ok column of calculate_macd_signals. -/
def macd_up_ok (require_zero_cross : Bool) (data : List Bar) (i : ℕ) : Bool :=
  match prevBar data i, data[i]? with
  | some p, some c =>
    if require_zero_cross then
      decide (p.MACD ≤ p.MACDs) && decide (c.MACD > c.MACDs) &&
        decide (c.MACD < 0) && decide (c.MACDs < 0)
    else
      decide (p.MACD ≤ p.MACDs) && decide (c.MACD > c.MACDs)
  | _, _ => false

/-- macd_down_ok column of calculate_macd_signals. -/
def macd_down_ok (require_zero_cross : Bool) (data : List Bar) (i : ℕ) : Bool :=
  match prevBar data i, data[i]? with
  | some p, some c =>
    if require_zero_cross then
      decide (p.MACD ≥ p.MACDs) && decide (c.MACD < c.MACDs) &&
        decide (c.MACD > 0) && decide (c.MACDs > 0)
    else
      decide (p.MACD ≥ p.MACDs) && decide (c.MACD < c.MACDs)
  | _, _ => false

/-- rsi_up_ok column of calculate_rsi_signals. -/
def rsi_up_ok (buy_threshold : ℚ) (data : List Bar) (i : ℕ) : Bool :=
  match prevBar data i, data[i]? with
  | some p, some c => decide (p.RSI < 50) && decide (c.RSI > buy_threshold)
  | _, _ => false

/-- rsi_down_ok column of calculate_rsi_signals. -/
def rsi_down_ok (sell_threshold : ℚ) (data : List Bar) (i : ℕ) : Bool :=
  match prevBar data i, data[i]? with
  | some p, some c => decide (p.RSI > 50) && decide (c.RSI < sell_threshold)
  | _, _ => false

/-- Volume at row k, 0 off the end (only read inside a guarded window). -/
def volAt (data : List Bar) (k : ℕ) : ℚ :=
  match data[k]? with
  | some b => b.Volume
  | none => 0

/-- volume_ok column of calculate_volume_filter: current volume strictly above
the rolling mean over `lookback` rows, False while fewer than `lookback` rows
of history exist (min_periods=lookback makes the mean NaN there). -/
def volume_ok (lookback : ℕ) (data : List Bar) (i : ℕ) : Bool :=
  match data[i]? with
  | none => false
  | some c =>
    decide (lookback ≤ i + 1) &&
      decide (c.Volume >
        (((List.range lookback).map fun j => volAt data (i - j)).sum / (lookback : ℚ)))

/-- buy_signal column of generate_signals.  The dispatch in the source,
`config.indicators_required == len([c for c in buy_conditions if 'volume_ok'
not in str(c)])`, counts the non-volume condition columns, which is always 3,
so it is embedded as the comparison `indicators_required = 3`.  In the
all-align branch the volume column, when enabled, is a fourth mandatory
conjunct; in the count branch only the three non-volume columns are counted. -/
def buy_signal (mode : TrendMode) (stype : StrategyType) (data : List Bar) (i : ℕ) : Bool :=
  let cfg := get_strategy_config stype
  let t := trend_long_ok mode cfg.trend_confirmation_periods data i
  let m := macd_up_ok cfg.macd_require_zero_cross data i
  let r := rsi_up_ok cfg.rsi_buy_threshold data i
  if cfg.indicators_required = 3 then
    if cfg.use_volume_filter then
      t && m && r && volume_ok (cfg.volume_lookback_periods.getD 0) data i
    else
      t && m && r
  else
    decide (cfg.indicators_required ≤ t.toNat + m.toNat + r.toNat)

/-- sell_signal column of generate_signals (mirror of buy_signal). -/
def sell_signal (mode : TrendMode) (stype : StrategyType) (data : List Bar) (i : ℕ) : Bool :=
  let cfg := get_strategy_config stype
  let t := trend_short_ok mode cfg.trend_confirmation_periods data i
  let m := macd_down_ok cfg.macd_require_zero_cross data i
  let r := rsi_down_ok cfg.rsi_sell_threshold data i
  if cfg.indicators_required = 3 then
    if cfg.use_volume_filter then
      t && m && r && volume_ok (cfg.volume_lookback_periods.getD 0) data i
    else
      t && m && r
  else
    decide (cfg.indicators_required ≤ t.toNat + m.toNat + r.toNat)

/-- The BUY/SELL/HOLD decision. -/
inductive Signal
  | BUY
  | SELL
  | HOLD
deriving DecidableEq

/-- The signal column of generate_signals.  The source initialises the column
to HOLD, then overwrites the buy_signal rows with BUY, then overwrites the
sell_signal rows with SELL; the last write wins, so a row with both flags set
would read SELL. -/
def signalAt (mode : TrendMode) (stype : StrategyType) (data : List Bar) (i : ℕ) : Signal :=
  if sell_signal mode stype data i then .SELL
  else if buy_signal mode stype data i then .BUY
  else .HOLD

/-- generate_signals from signals.py: error on empty input, otherwise the
per-row signal column. -/
def generate_signals (mode : TrendMode) (stype : StrategyType) (data : List Bar) :
    Except String (List Signal) :=
  if data = [] then .error "Input data is empty"
  else .ok ((List.range data.length).map fun i => signalAt mode stype data i)

/-- Number of true long-side conditions among the three non-volume columns. -/
def longCount3 (mode : TrendMode) (stype : StrategyType) (data : List Bar) (i : ℕ) : ℕ :=
  let cfg := get_strategy_config stype
  (trend_long_ok mode cfg.trend_confirmation_periods data i).toNat +
    (macd_up_ok cfg.macd_require_zero_cross data i).toNat +
    (rsi_up_ok cfg.rsi_buy_threshold data i).toNat

/-- Number of true short-side conditions among the three non-volume columns. -/
def shortCount3 (mode : TrendMode) (stype : StrategyType) (data : List Bar) (i : ℕ) : ℕ :=
  let cfg := get_strategy_config stype
  (trend_short_ok mode cfg.trend_confirmation_periods data i).toNat +
    (macd_down_ok cfg.macd_require_zero_cross data i).toNat +
    (rsi_down_ok cfg.rsi_sell_threshold data i).toNat

/-- The volume gate: vacuously true when the profile has no volume filter,
otherwise the volume_ok column. -/
def volGate (stype : StrategyType) (data : List Bar) (i : ℕ) : Bool :=
  let cfg := get_strategy_config stype
  !cfg.use_volume_filter || volume_ok (cfg.volume_lookback_periods.getD 0) data i

/-- Follows the words of the spec (decision aggregation): count how many of
trend, MACD, RSI and, when enabled, volume hold on the long side.  Written
from the spec text, not from the code, to compare the two readings. -/
def spec_long_count (mode : TrendMode) (stype : StrategyType) (data : List Bar) (i : ℕ) : ℕ :=
  let cfg := get_strategy_config stype
  longCount3 mode stype data i +
    (if cfg.use_volume_filter then
      (volume_ok (cfg.volume_lookback_periods.getD 0) data i).toNat
    else 0)

/-- Follows the words of the spec: buy_signal iff the long-side count over all
enabled indicators reaches indicators_required. -/
def spec_buy_signal (mode : TrendMode) (stype : StrategyType) (data : List Bar) (i : ℕ) : Bool :=
  decide ((get_strategy_config stype).indicators_required ≤ spec_long_count mode stype data i)

/-! Backtest engine (class SimpleBacktest of src/backtest.py).  The engine
reads, per row, only the timestamp, the Open and Close columns and the signal
column, so its input rows carry exactly those. -/

/-- One row of the dataframe handed to run_backtest. -/
structure BtRow where
  ts : ℕ
  Open : ℚ
  Close : ℚ
  signal : Signal
deriving DecidableEq

/-- One record of the self.trades ledger. -/
structure Trade where
  entry_time : ℕ
  exit_time : ℕ
  entry_price : ℚ
  exit_price : ℚ
  position : ℤ
  pnl : ℚ
  commission : ℚ
deriving DecidableEq

/-- One record of the equity_history list. -/
structure EquityPoint where
  timestamp : ℕ
  capital : ℚ
  unrealized_pnl : ℚ
  total_equity : ℚ
  position : ℤ
  price : ℚ
deriving DecidableEq

/-- The constructor arguments of SimpleBacktest. -/
structure BtCfg where
  initial_capital : ℚ
  commission : ℚ
  slippage : ℚ
deriving DecidableEq

/-- The mutable simulation state of SimpleBacktest.  In the source
entry_price and entry_time are None while flat; both are only ever read while
a position is open, at which point they were set by the entry, so they are
modelled as plain values initialised to 0. -/
structure BTState where
  capital : ℚ
  position : ℤ
  entry_price : ℚ
  entry_time : ℕ
  trades : List Trade
deriving DecidableEq

/-- The reset method. -/
def reset (cfg : BtCfg) : BTState :=
  { capital := cfg.initial_capital, position := 0,
    entry_price := 0, entry_time := 0, trades := [] }

/-- calculate_fill_price: slippage is adverse on BUY and SELL fills. -/
def calculate_fill_price (slippage : ℚ) (open_price : ℚ) (signal_type : Signal) : ℚ :=
  match signal_type with
  | .BUY => open_price * (1 + slippage)
  | .SELL => open_price * (1 - slippage)
  | .HOLD => open_price

/-- execute_trade: the state effects of the BUY/SELL branches (the returned
trade_info dict is discarded by the caller and is not modelled).  `abs` of the
position, used by the source as the traded size, is `Int.natAbs` cast to ℚ. -/
def execute_trade (cfg : BtCfg) (st : BTState) (timestamp : ℕ) (open_price : ℚ)
    (signal_type : Signal) : BTState :=
  let fill_price := calculate_fill_price cfg.slippage open_price signal_type
  match signal_type with
  | .BUY =>
    if st.position = 0 then
      { st with position := 1, entry_price := fill_price, entry_time := timestamp,
                capital := st.capital - cfg.commission }
    else if st.position = -1 then
      let pnl := (st.entry_price - fill_price) * (st.position.natAbs : ℚ)
      { capital := st.capital + pnl - cfg.commission - cfg.commission,
        position := 1, entry_price := fill_price, entry_time := timestamp,
        trades := st.trades ++
          [{ entry_time := st.entry_time, exit_time := timestamp,
             entry_price := st.entry_price, exit_price := fill_price,
             position := st.position, pnl := pnl, commission := cfg.commission }] }
    else st
  | .SELL =>
    if st.position = 0 then
      { st with position := -1, entry_price := fill_price, entry_time := timestamp,
                capital := st.capital - cfg.commission }
    else if st.position = 1 then
      let pnl := (fill_price - st.entry_price) * (st.position.natAbs : ℚ)
      { capital := st.capital + pnl - cfg.commission - cfg.commission,
        position := -1, entry_price := fill_price, entry_time := timestamp,
        trades := st.trades ++
          [{ entry_time := st.entry_time, exit_time := timestamp,
             entry_price := st.entry_price, exit_price := fill_price,
             position := st.position, pnl := pnl, commission := cfg.commission }] }
    else st
  | .HOLD => st

/-- calculate_unrealized_pnl against a mark price. -/
def calculate_unrealized_pnl (st : BTState) (current_price : ℚ) : ℚ :=
  if st.position = 0 then 0
  else if st.position = 1 then (current_price - st.entry_price) * (st.position.natAbs : ℚ)
  else if st.position = -1 then (st.entry_price - current_price) * (st.position.natAbs : ℚ)
  else 0

/-- The equity_history record appended for a row, computed on the state as it
stands before that row acts (start-of-bar mark). -/
def mkEquityPoint (st : BTState) (row : BtRow) : EquityPoint :=
  let u := calculate_unrealized_pnl st row.Close
  { timestamp := row.ts, capital := st.capital, unrealized_pnl := u,
    total_equity := st.capital + u, position := st.position, price := row.Close }

/-- next_open of a row: the Open of the following row, none at the last row
(the source shifts the Open column by -1, leaving NaN on the final row). -/
def nextOpen : List BtRow → Option ℚ
  | [] => none
  | r :: _ => some r.Open

/-- One loop step of run_backtest acting on the state: execute the signal of
the row only when a next-row open exists and the signal is BUY or SELL. -/
def stepExec (cfg : BtCfg) (st : BTState) (row : BtRow) (rest : List BtRow) : BTState :=
  match nextOpen rest, row.signal with
  | some o, .BUY => execute_trade cfg st row.ts o .BUY
  | some o, .SELL => execute_trade cfg st row.ts o .SELL
  | _, _ => st

/-- The main loop of run_backtest: append the equity point for the row
(computed before the row acts), then execute the signal of the row. -/
def runLoop (cfg : BtCfg) (st : BTState) : List BtRow → BTState × List EquityPoint
  | [] => (st, [])
  | row :: rest =>
    let st' := stepExec cfg st row rest
    let p := runLoop cfg st' rest
    (p.1, mkEquityPoint st row :: p.2)

/-- The trade record appended by the forced close at series end: the exit is
the last Close, with no slippage applied. -/
def forcedTrade (cfg : BtCfg) (st : BTState) (last : BtRow) : Trade :=
  { entry_time := st.entry_time, exit_time := last.ts,
    entry_price := st.entry_price, exit_price := last.Close,
    position := st.position, pnl := calculate_unrealized_pnl st last.Close,
    commission := cfg.commission }

/-- The close-any-remaining-position block at the end of run_backtest. -/
def forceClose (cfg : BtCfg) (st : BTState) (last : BtRow) : BTState :=
  if st.position ≠ 0 then
    { st with
        capital := st.capital + calculate_unrealized_pnl st last.Close - cfg.commission,
        trades := st.trades ++ [forcedTrade cfg st last],
        position := 0 }
  else st

/-- run_backtest: error on empty input, otherwise the final state and the
equity curve (the performance metrics are separate reductions below, as in
get_backtest_results). -/
def run_backtest (cfg : BtCfg) (data : List BtRow) :
    Except String (BTState × List EquityPoint) :=
  match data with
  | [] => Except.error "Input data is empty"
  | row :: rest =>
    let p := runLoop cfg (reset cfg) (row :: rest)
    Except.ok (forceClose cfg p.1 (List.getLast (row :: rest) (List.cons_ne_nil row rest)), p.2)

/-- Final state observation of a run (reset state on the error path, which is
only reached on empty input). -/
def runState (cfg : BtCfg) (data : List BtRow) : BTState :=
  match run_backtest cfg data with
  | .ok p => p.1
  | .error _ => reset cfg

/-- Equity-curve observation of a run. -/
def runEquity (cfg : BtCfg) (data : List BtRow) : List EquityPoint :=
  match run_backtest cfg data with
  | .ok p => p.2
  | .error _ => []

/-- The state at the end of the main loop, before the forced close. -/
def loopState (cfg : BtCfg) (data : List BtRow) : BTState :=
  (runLoop cfg (reset cfg) data).1

/-- The last row of a nonempty input. -/
def lastRow (r0 : BtRow) (rest : List BtRow) : BtRow :=
  List.getLast (r0 :: rest) (List.cons_ne_nil r0 rest)

/-- Replace the signal of the last row. -/
def setLastSignal (s : Signal) : List BtRow → List BtRow
  | [] => []
  | [r] => [{ r with signal := s }]
  | r :: r2 :: rest => r :: setLastSignal s (r2 :: rest)

/-! Performance reductions of get_backtest_results (lines used by the claims,
taken before the final rounding for display). -/

/-- Trades with pnl > 0. -/
def winningTrades (trades : List Trade) : List Trade :=
  trades.filter fun t => 0 < t.pnl

/-- Trades with pnl < 0. -/
def losingTrades (trades : List Trade) : List Trade :=
  trades.filter fun t => t.pnl < 0

/-- gross_profit: sum of winning pnl (0 for an empty partition). -/
def gross_profit (trades : List Trade) : ℚ :=
  ((winningTrades trades).map fun t => t.pnl).sum

/-- gross_loss: absolute value of the sum of losing pnl. -/
def gross_loss (trades : List Trade) : ℚ :=
  |((losingTrades trades).map fun t => t.pnl).sum|

/-- Value of the profit_factor metric: a finite ratio or the infinity
sentinel. -/
inductive PFVal
  | fin (q : ℚ)
  | inf
deriving DecidableEq

/-- profit_factor as computed for a nonempty ledger:
`gross_profit / gross_loss if gross_loss > 0 else float('inf')`. -/
def profit_factor (trades : List Trade) : PFVal :=
  if 0 < gross_loss trades then .fin (gross_profit trades / gross_loss trades)
  else .inf

/-- The profit_factor field of get_backtest_results: the zero-trade early
return reports 0.0, otherwise the profit_factor computation. -/
def resultProfitFactor (trades : List Trade) : PFVal :=
  if trades = [] then .fin 0 else profit_factor trades

/-- Running maximum tail: expanding().max() continued from accumulator m. -/
def rmAux (m : ℚ) : List ℚ → List ℚ
  | [] => []
  | x :: xs => max m x :: rmAux (max m x) xs

/-- expanding().max() over the equity values. -/
def runningMax : List ℚ → List ℚ
  | [] => []
  | x :: xs => x :: rmAux x xs

/-- The per-point drawdown series `(equity - running_max) / running_max`. -/
def drawdowns (eqs : List ℚ) : List ℚ :=
  (eqs.zip (runningMax eqs)).map fun p => (p.1 - p.2) / p.2

/-- max_drawdown: minimum of the drawdown series, 0 for an empty curve (the
source reports 0.0 when the equity curve is empty). -/
def maxDrawdown (eqs : List ℚ) : ℚ :=
  match drawdowns eqs with
  | [] => 0
  | d :: ds => ds.foldl min d

/-- The total_equity column of the equity curve. -/
def totalEquitySeries (eqs : List EquityPoint) : List ℚ :=
  eqs.map fun e => e.total_equity

/-! Descriptive predicates used to state the trade-ledger invariants. -/

/-- Well-formed position values of the state machine. -/
def PosOK (p : ℤ) : Prop := p = 0 ∨ p = 1 ∨ p = -1

/-- The signal that opens a position of the given side. -/
def openSignalOf (p : ℤ) : Signal := if p = 1 then .BUY else .SELL

/-- The signal that closes a position of the given side. -/
def closeSignalOf (p : ℤ) : Signal := if p = 1 then .SELL else .BUY

/-- The entry of a trade comes from a signal row: its entry_time is the
timestamp of the row carrying the opening signal, and its entry_price is the
Open of the following row adjusted by slippage. -/
def EntryDesc (cfg : BtCfg) (data : List BtRow) (t : Trade) : Prop :=
  ∃ j rj rj1, data[j]? = some rj ∧ data[j+1]? = some rj1 ∧
    rj.signal = openSignalOf t.position ∧
    t.entry_time = rj.ts ∧
    t.entry_price = calculate_fill_price cfg.slippage rj1.Open (openSignalOf t.position)

/-- The exit of a (reversal) trade comes from a signal row: its exit_time is
the timestamp of the row carrying the closing signal, and its exit_price is
the Open of the following row adjusted by slippage. -/
def ExitDesc (cfg : BtCfg) (data : List BtRow) (t : Trade) : Prop :=
  ∃ k rk rk1, data[k]? = some rk ∧ data[k+1]? = some rk1 ∧
    rk.signal = closeSignalOf t.position ∧
    t.exit_time = rk.ts ∧
    t.exit_price = calculate_fill_price cfg.slippage rk1.Open (closeSignalOf t.position)

/-- Full descriptor of a trade recorded by the main loop. -/
def TradeDesc (cfg : BtCfg) (data : List BtRow) (t : Trade) : Prop :=
  EntryDesc cfg data t ∧ ExitDesc cfg data t ∧ t.entry_time < t.exit_time

/-- State invariant: an open position was entered by a signal row, filled at
the next-row open with slippage. -/
def EntryStInv (cfg : BtCfg) (data : List BtRow) (st : BTState) : Prop :=
  st.position ≠ 0 →
    ∃ j rj rj1, data[j]? = some rj ∧ data[j+1]? = some rj1 ∧
      rj.signal = openSignalOf st.position ∧
      st.entry_time = rj.ts ∧
      st.entry_price = calculate_fill_price cfg.slippage rj1.Open (openSignalOf st.position)

/-! Concrete configurations and series used by the counterexamples and
witnesses. -/

/-- Backtest configuration with commission 1 and slippage 0. -/
def cfg1 : BtCfg := { initial_capital := 10000, commission := 1, slippage := 0 }

/-- The three-bar scenario: BUY on the first bar, SELL on the second, opens
101 and 99 on the second and third bars, with last Close c2. -/
def scenBars (c2 : ℚ) : List BtRow :=
  [{ ts := 0, Open := 100, Close := 100, signal := .BUY },
   { ts := 1, Open := 101, Close := 101, signal := .SELL },
   { ts := 2, Open := 99, Close := c2, signal := .HOLD }]

/-- The three-bar scenario with last Close 99. -/
def data1 : List BtRow := scenBars 99

/-- A two-bar series whose only trade is a forced close with pnl 0. -/
def data5 : List BtRow :=
  [{ ts := 0, Open := 100, Close := 100, signal := .BUY },
   { ts := 1, Open := 101, Close := 101, signal := .HOLD }]

/-- First row of the forced-close witness series. -/
def r0w : BtRow := { ts := 0, Open := 100, Close := 100, signal := .BUY }

/-- Tail of the forced-close witness series. -/
def restw : List BtRow := [{ ts := 1, Open := 101, Close := 101, signal := .HOLD }]

/-- A bar satisfying the raw pullback long-trend condition. -/
def barT : Bar :=
  { SMA_20 := 90, SMA_50 := 100, SMA_200 := 80, MACD := 0, MACDs := 0,
    RSI := 50, Volume := 100 }

/-- Two trend bars for the confirmation-window witness. -/
def dataT : List Bar := [barT, barT]

/-- Three bars on which, for the conservative profile, trend, MACD and RSI
all hold at the last bar while the volume window is still too short. -/
def dataC2 : List Bar :=
  [{ SMA_20 := 90, SMA_50 := 100, SMA_200 := 80, MACD := -3, MACDs := -2,
     RSI := 50, Volume := 100 },
   { SMA_20 := 90, SMA_50 := 100, SMA_200 := 80, MACD := -3, MACDs := -2,
     RSI := 49, Volume := 100 },
   { SMA_20 := 90, SMA_50 := 100, SMA_200 := 80, MACD := -1, MACDs := -2,
     RSI := 60, Volume := 100 }]

/-- A one-trade ledger with a losing trade, for the profit-factor witness. -/
def tradesW : List Trade :=
  [{ entry_time := 0, exit_time := 1, entry_price := 101, exit_price := 99,
     position := 1, pnl := -2, commission := 1 }]

/-- A two-bar all-HOLD series, giving a constant equity curve. -/
def dataW8 : List BtRow :=
  [{ ts := 0, Open := 100, Close := 100, signal := .HOLD },
   { ts := 1, Open := 101, Close := 101, signal := .HOLD }]

/-! Helper lemmas. -/

theorem and3_eq_count (t m r : Bool) :
    (t && m && r) = decide (3 ≤ t.toNat + m.toNat + r.toNat) := by
  cases t <;> cases m <;> cases r <;> decide

theorem and4_eq_count (t m r v : Bool) :
    (t && m && r && v) = (decide (3 ≤ t.toNat + m.toNat + r.toNat) && v) := by
  cases t <;> cases m <;> cases r <;> cases v <;> decide

theorem bool_excl_toNat (a b : Bool) (h : ¬(a = true ∧ b = true)) :
    a.toNat + b.toNat ≤ 1 := by
  cases a <;> cases b <;> simp_all

theorem trendRaw_excl (mode : TrendMode) (data : List Bar) (i : ℕ) :
    ¬(trendLongRaw mode data i = true ∧ trendShortRaw mode data i = true) := by
  rintro ⟨hl, hs⟩
  unfold trendLongRaw at hl
  unfold trendShortRaw at hs
  cases hdi : data[i]? with
  | none => rw [hdi] at hl; exact absurd hl (by simp)
  | some b =>
    rw [hdi] at hl hs
    cases mode <;> simp only [Bool.and_eq_true, decide_eq_true_eq] at hl hs <;>
      linarith [hl.1, hs.1]

theorem rollingAllTrue_head (c : ℕ → Bool) (w i : ℕ) (hw : 0 < w)
    (h : rollingAllTrue c w i = true) : c i = true := by
  simp only [rollingAllTrue, Bool.and_eq_true, List.all_eq_true, List.mem_range] at h
  simpa using h.2 0 hw

theorem trend_ok_excl (mode : TrendMode) (cp : ℕ) (data : List Bar) (i : ℕ) :
    ¬(trend_long_ok mode cp data i = true ∧ trend_short_ok mode cp data i = true) := by
  rintro ⟨hl, hs⟩
  unfold trend_long_ok at hl
  unfold trend_short_ok at hs
  by_cases hcp : 1 < cp
  · rw [if_pos hcp] at hl hs
    exact trendRaw_excl mode data i
      ⟨rollingAllTrue_head _ _ _ (by omega) hl, rollingAllTrue_head _ _ _ (by omega) hs⟩
  · rw [if_neg hcp] at hl hs
    exact trendRaw_excl mode data i ⟨hl, hs⟩

theorem macd_excl (z : Bool) (data : List Bar) (i : ℕ) :
    ¬(macd_up_ok z data i = true ∧ macd_down_ok z data i = true) := by
  rintro ⟨hu, hd⟩
  unfold macd_up_ok at hu
  unfold macd_down_ok at hd
  cases hp : prevBar data i with
  | none =>
    cases hc : data[i]? with
    | none => rw [hp, hc] at hu; exact absurd hu (by simp)
    | some c => rw [hp, hc] at hu; exact absurd hu (by simp)
  | some p =>
    cases hc : data[i]? with
    | none => rw [hp, hc] at hu; exact absurd hu (by simp)
    | some c =>
      rw [hp, hc] at hu hd
      cases z <;> simp only [Bool.and_eq_true, decide_eq_true_eq, if_true, if_false,
        Bool.false_eq_true, reduceIte] at hu hd
      · linarith [hu.2, hd.2]
      · linarith [hu.1.1.2, hd.1.1.2]

theorem rsi_excl (bt st : ℚ) (data : List Bar) (i : ℕ) :
    ¬(rsi_up_ok bt data i = true ∧ rsi_down_ok st data i = true) := by
  rintro ⟨hu, hd⟩
  unfold rsi_up_ok at hu
  unfold rsi_down_ok at hd
  cases hp : prevBar data i with
  | none =>
    cases hc : data[i]? with
    | none => rw [hp, hc] at hu; exact absurd hu (by simp)
    | some c => rw [hp, hc] at hu; exact absurd hu (by simp)
  | some p =>
    cases hc : data[i]? with
    | none => rw [hp, hc] at hu; exact absurd hu (by simp)
    | some c =>
      rw [hp, hc] at hu hd
      simp only [Bool.and_eq_true, decide_eq_true_eq] at hu hd
      linarith [hu.1, hd.1]

theorem buy_sell_excl (mode : TrendMode) (stype : StrategyType) (data : List Bar) (i : ℕ) :
    ¬(buy_signal mode stype data i = true ∧ sell_signal mode stype data i = true) := by
  rintro ⟨hb, hs⟩
  cases stype with
  | CURRENT =>
    simp [buy_signal, sell_signal, get_strategy_config] at hb hs
    exact trend_ok_excl mode 1 data i ⟨by tauto, by tauto⟩
  | CONSERVATIVE =>
    simp [buy_signal, sell_signal, get_strategy_config] at hb hs
    exact trend_ok_excl mode 3 data i ⟨by tauto, by tauto⟩
  | AGGRESSIVE =>
    simp [buy_signal, sell_signal, get_strategy_config] at hb hs
    have h1 := bool_excl_toNat _ _ (trend_ok_excl mode 1 data i)
    have h2 := bool_excl_toNat _ _ (macd_excl false data i)
    have h3 := bool_excl_toNat _ _ (rsi_excl 50 50 data i)
    omega

theorem rollingAllTrue_iff (c : ℕ → Bool) (w i : ℕ) :
    rollingAllTrue c w i = true ↔ (w ≤ i + 1 ∧ ∀ j < w, c (i - j) = true) := by
  simp [rollingAllTrue, List.all_eq_true, List.mem_range]

/-! Claim theorems. -/

/-- C2 counterexample: on the conservative (volume-enabled, three-required)
profile, a bar on which trend, MACD and RSI hold but volume does not gives a
spec-side count of 3 of 4, so the spec reading fires a buy signal, while the
code does not. -/
theorem C2_counterexample :
    spec_buy_signal .pullback .CONSERVATIVE dataC2 2 = true ∧
    buy_signal .pullback .CONSERVATIVE dataC2 2 = false := by decide

/-- C2 (amended): buy_signal holds iff at least indicators_required of the
three core long conditions (trend, MACD, RSI) hold and, when the volume
filter is enabled, volume_ok additionally holds — volume is a mandatory gate,
not a fourth counted indicator; symmetrically for sell_signal. -/
theorem C2_thm (mode : TrendMode) (stype : StrategyType) (data : List Bar) (i : ℕ) :
    (buy_signal mode stype data i =
      (decide ((get_strategy_config stype).indicators_required ≤
          longCount3 mode stype data i) && volGate stype data i)) ∧
    (sell_signal mode stype data i =
      (decide ((get_strategy_config stype).indicators_required ≤
          shortCount3 mode stype data i) && volGate stype data i)) := by
  cases stype with
  | CURRENT =>
    constructor <;>
      simp [buy_signal, sell_signal, longCount3, shortCount3, volGate,
        get_strategy_config, and3_eq_count]
  | AGGRESSIVE =>
    constructor <;>
      simp [buy_signal, sell_signal, longCount3, shortCount3, volGate,
        get_strategy_config]
  | CONSERVATIVE =>
    constructor <;>
      simp [buy_signal, sell_signal, longCount3, shortCount3, volGate,
        get_strategy_config, and4_eq_count]

/-- C3: the decision equals BUY whenever buy_signal holds, otherwise SELL when
sell_signal holds, otherwise HOLD.  The source writes the SELL mask last, so a
row with both flags would read SELL, but the two flags are mutually exclusive
on every bar and every profile (each condition pair is exclusive), so the
claimed BUY-first reading agrees with the code on all inputs; in particular a
both-flags bar never occurs. -/
theorem C3_thm (mode : TrendMode) (stype : StrategyType) (data : List Bar) (i : ℕ) :
    signalAt mode stype data i =
      (if buy_signal mode stype data i then Signal.BUY
       else if sell_signal mode stype data i then Signal.SELL
       else Signal.HOLD) := by
  unfold signalAt
  cases hb : buy_signal mode stype data i <;> cases hs : sell_signal mode stype data i <;>
    simp only [if_true, if_false, Bool.false_eq_true, reduceIte]
  exact absurd ⟨hb, hs⟩ (buy_sell_excl mode stype data i)

/-- C6: with confirmation above one, the trend flag holds iff the raw
condition held on the bar and on each of the cp - 1 preceding bars, a short
history always yields false, and with confirmation one the flag is the raw
condition. -/
theorem C6_thm (mode : TrendMode) (data : List Bar) (cp i : ℕ) :
    (1 < cp →
      ((trend_long_ok mode cp data i = true ↔
          (cp ≤ i + 1 ∧ ∀ j < cp, trendLongRaw mode data (i - j) = true)) ∧
       (trend_short_ok mode cp data i = true ↔
          (cp ≤ i + 1 ∧ ∀ j < cp, trendShortRaw mode data (i - j) = true)) ∧
       (i + 1 < cp → trend_long_ok mode cp data i = false ∧
          trend_short_ok mode cp data i = false))) ∧
    (cp = 1 →
      trend_long_ok mode cp data i = trendLongRaw mode data i ∧
      trend_short_ok mode cp data i = trendShortRaw mode data i) := by
  constructor
  · intro hcp
    have hl : trend_long_ok mode cp data i = rollingAllTrue (trendLongRaw mode data) cp i := by
      simp [trend_long_ok, hcp]
    have hs : trend_short_ok mode cp data i = rollingAllTrue (trendShortRaw mode data) cp i := by
      simp [trend_short_ok, hcp]
    refine ⟨by rw [hl]; exact rollingAllTrue_iff _ _ _,
            by rw [hs]; exact rollingAllTrue_iff _ _ _, ?_⟩
    intro hi
    have hnot : ¬(cp ≤ i + 1) := by omega
    constructor
    · rw [hl]; simp [rollingAllTrue, hnot]
    · rw [hs]; simp [rollingAllTrue, hnot]
  · intro hcp
    subst hcp
    constructor <;> simp [trend_long_ok, trend_short_ok]

/-- C6 witness: confirmation 2 on a two-bar series whose raw pullback
condition holds on both bars. -/
theorem C6_witness :
    1 < 2 ∧
    ((trend_long_ok TrendMode.pullback 2 dataT 1 = true ↔
        (2 ≤ 1 + 1 ∧ ∀ j < 2, trendLongRaw TrendMode.pullback dataT (1 - j) = true)) ∧
     (trend_short_ok TrendMode.pullback 2 dataT 1 = true ↔
        (2 ≤ 1 + 1 ∧ ∀ j < 2, trendShortRaw TrendMode.pullback dataT (1 - j) = true)) ∧
     (1 + 1 < 2 → trend_long_ok TrendMode.pullback 2 dataT 1 = false ∧
        trend_short_ok TrendMode.pullback 2 dataT 1 = false)) :=
  ⟨by norm_num, (C6_thm TrendMode.pullback dataT 2 1).1 (by norm_num)⟩

/-- C9: both stages report the empty-input error on an empty series and
produce nothing else. -/
theorem C9_thm (mode : TrendMode) (stype : StrategyType) (cfg : BtCfg) :
    generate_signals mode stype ([] : List Bar) = .error "Input data is empty" ∧
    run_backtest cfg ([] : List BtRow) = .error "Input data is empty" :=
  ⟨rfl, rfl⟩

/-- C1 counterexample: on the three-bar scenario (commission 1, slippage 0,
last close 99) the code records two trades, not one, and ends at capital
9994, not 9996: the SELL on an open long reverses into a short, which is then
force-closed, charging four commissions in total. -/
theorem C1_counterexample :
    (runState cfg1 data1).trades.length = 2 ∧
    (runState cfg1 data1).capital = 9994 ∧
    ¬((runState cfg1 data1).trades.length = 1 ∧
      (runState cfg1 data1).capital = 10000 - 2 - 2) := by
  refine ⟨?_, ?_, ?_⟩ <;>
    norm_num [runState, run_backtest, runLoop, stepExec, nextOpen, execute_trade,
      calculate_fill_price, calculate_unrealized_pnl, reset, forceClose,
      forcedTrade, cfg1, data1, scenBars]

/-- C1 (amended): the scenario records two trades — the long trade with pnl
99 - 101 = -2, then the forced close of the reversal short at the last Close
with pnl 99 - c2 — and final capital initial - 2 + (99 - c2) - 4, the four
commissions being the entry, the reversal close, the reversal entry and the
forced close. -/
theorem C1_thm (c2 : ℚ) :
    (runState cfg1 (scenBars c2)).trades.length = 2 ∧
    ((runState cfg1 (scenBars c2)).trades.map fun t => t.pnl) = [-2, 99 - c2] ∧
    (runState cfg1 (scenBars c2)).capital = 10000 - 2 + (99 - c2) - 4 := by
  refine ⟨?_, ?_, ?_⟩ <;>
    norm_num [runState, run_backtest, runLoop, stepExec, nextOpen, execute_trade,
      calculate_fill_price, calculate_unrealized_pnl, reset, forceClose,
      forcedTrade, cfg1, scenBars] <;>
    ring

/-- C5 counterexample: a run whose only trade has pnl 0 — gross profit and
gross loss are both zero with a nonempty ledger, and the code reports the
infinity sentinel, not 0. -/
theorem C5_counterexample :
    (runState cfg1 data5).trades ≠ [] ∧
    gross_profit (runState cfg1 data5).trades = 0 ∧
    gross_loss (runState cfg1 data5).trades = 0 ∧
    resultProfitFactor (runState cfg1 data5).trades = .inf ∧
    resultProfitFactor (runState cfg1 data5).trades ≠ .fin 0 := by
  have hmain : (runState cfg1 data5).trades ≠ [] ∧
      gross_profit (runState cfg1 data5).trades = 0 ∧
      gross_loss (runState cfg1 data5).trades = 0 ∧
      resultProfitFactor (runState cfg1 data5).trades = .inf := by
    refine ⟨?_, ?_, ?_, ?_⟩ <;>
      norm_num [runState, run_backtest, runLoop, stepExec, nextOpen, execute_trade,
        calculate_fill_price, calculate_unrealized_pnl, reset, forceClose,
        forcedTrade, cfg1, data5, resultProfitFactor, profit_factor, gross_loss,
        gross_profit, winningTrades, losingTrades]
  refine ⟨hmain.1, hmain.2.1, hmain.2.2.1, hmain.2.2.2, ?_⟩
  rw [hmain.2.2.2]
  exact fun hc => PFVal.noConfusion hc

/-- C5 (amended): profit_factor is gross_profit / gross_loss when gross_loss
is positive; it is the infinity sentinel whenever the ledger is nonempty and
gross_loss is zero — including when gross_profit is also zero; it is 0 only
for an empty ledger (the zero-trade early return). -/
theorem C5_thm (trades : List Trade) :
    (0 < gross_loss trades →
      resultProfitFactor trades = .fin (gross_profit trades / gross_loss trades)) ∧
    (trades ≠ [] → gross_loss trades = 0 → resultProfitFactor trades = .inf) ∧
    (trades = [] → resultProfitFactor trades = .fin 0) := by
  refine ⟨?_, ?_, ?_⟩
  · intro h
    have hne : trades ≠ [] := by
      rintro rfl
      simp [gross_loss, losingTrades] at h
    simp [resultProfitFactor, hne, profit_factor, h]
  · intro hne h0
    simp [resultProfitFactor, hne, profit_factor, h0]
  · intro h
    simp [resultProfitFactor, h]

/-- C5 witness: a one-trade losing ledger has positive gross loss and a
finite profit factor. -/
theorem C5_witness :
    0 < gross_loss tradesW ∧
    resultProfitFactor tradesW = .fin (gross_profit tradesW / gross_loss tradesW) :=
  ⟨by norm_num [gross_loss, losingTrades, tradesW],
   (C5_thm tradesW).1 (by norm_num [gross_loss, losingTrades, tradesW])⟩

theorem foldl_min_le_init (d : ℚ) (l : List ℚ) : l.foldl min d ≤ d := by
  induction l generalizing d with
  | nil => simp
  | cons x xs ih =>
    simp only [List.foldl_cons]
    exact le_trans (ih (min d x)) (min_le_left d x)

theorem maxDrawdown_nonpos (eqs : List ℚ) : maxDrawdown eqs ≤ 0 := by
  cases eqs with
  | nil => simp [maxDrawdown, drawdowns, runningMax]
  | cons e es =>
    have h : drawdowns (e :: es) =
        0 :: ((es.zip (rmAux e es)).map fun p => (p.1 - p.2) / p.2) := by
      simp [drawdowns, runningMax]
    simp only [maxDrawdown, h]
    exact foldl_min_le_init 0 _

theorem rmAux_chain : ∀ (l : List ℚ) (m : ℚ),
    List.Chain' (· ≤ ·) (m :: l) → rmAux m l = l
  | [], _, _ => rfl
  | x :: xs, m, h => by
    have hmx : m ≤ x := (List.chain'_cons.mp h).1
    have h2 : List.Chain' (· ≤ ·) (x :: xs) := (List.chain'_cons.mp h).2
    simp [rmAux, max_eq_right hmx, rmAux_chain xs x h2]

theorem runningMax_chain (l : List ℚ) (h : List.Chain' (· ≤ ·) l) :
    runningMax l = l := by
  cases l with
  | nil => rfl
  | cons x xs => simp [runningMax, rmAux_chain xs x h]

theorem zip_self_drawdown (l : List ℚ) :
    ((l.zip l).map fun p => (p.1 - p.2) / p.2) = l.map fun _ => (0 : ℚ) := by
  induction l with
  | nil => rfl
  | cons x xs ih => simp [ih]

theorem foldl_min_zeros (l : List ℚ) :
    ((l.map fun _ => (0 : ℚ)).foldl min 0) = 0 := by
  induction l with
  | nil => rfl
  | cons x xs ih => simpa using ih

theorem maxDrawdown_of_chain (l : List ℚ) (h : List.Chain' (· ≤ ·) l) :
    maxDrawdown l = 0 := by
  cases l with
  | nil => rfl
  | cons e es =>
    have hr : runningMax (e :: es) = e :: es := runningMax_chain _ h
    have hd : drawdowns (e :: es) = (e :: es).map fun _ => (0 : ℚ) := by
      rw [drawdowns, hr, zip_self_drawdown]
    simp only [maxDrawdown, hd, List.map_cons]
    simpa using foldl_min_zeros es

/-- C8: max_drawdown, the minimum over the equity curve of
(equity - running max) / running max, is never positive, and is 0 whenever
the total-equity series is monotonically non-decreasing. -/
theorem C8_thm (cfg : BtCfg) (data : List BtRow) :
    maxDrawdown (totalEquitySeries (runEquity cfg data)) ≤ 0 ∧
    (List.Chain' (· ≤ ·) (totalEquitySeries (runEquity cfg data)) →
      maxDrawdown (totalEquitySeries (runEquity cfg data)) = 0) :=
  ⟨maxDrawdown_nonpos _, fun h => maxDrawdown_of_chain _ h⟩

theorem execute_trade_behavior (cfg : BtCfg) (st : BTState) (ts : ℕ) (op : ℚ)
    (s : Signal) (hpos : PosOK st.position) :
    execute_trade cfg st ts op s = st ∨
    (PosOK (execute_trade cfg st ts op s).position ∧
     (execute_trade cfg st ts op s).position ≠ 0 ∧
     (execute_trade cfg st ts op s).entry_time = ts ∧
     (execute_trade cfg st ts op s).entry_price = calculate_fill_price cfg.slippage op s ∧
     s = openSignalOf (execute_trade cfg st ts op s).position ∧
     ((execute_trade cfg st ts op s).trades = st.trades ∨
      (st.position ≠ 0 ∧ s = closeSignalOf st.position ∧
       ∃ p, (execute_trade cfg st ts op s).trades =
         st.trades ++ [{ entry_time := st.entry_time, exit_time := ts,
                         entry_price := st.entry_price,
                         exit_price := calculate_fill_price cfg.slippage op s,
                         position := st.position, pnl := p,
                         commission := cfg.commission }]))) := by
  rcases hpos with h | h | h <;> cases s
  · right
    refine ⟨?_, ?_, ?_, ?_, ?_, Or.inl ?_⟩ <;>
      simp [execute_trade, h, openSignalOf, PosOK]
  · right
    refine ⟨?_, ?_, ?_, ?_, ?_, Or.inl ?_⟩ <;>
      simp [execute_trade, h, openSignalOf, PosOK]
  · exact Or.inl rfl
  · exact Or.inl (by simp [execute_trade, h])
  · right
    refine ⟨?_, ?_, ?_, ?_, ?_, Or.inr ⟨by simp [h], ?_, ?_⟩⟩ <;>
      simp [execute_trade, h, openSignalOf, closeSignalOf, PosOK]
  · exact Or.inl rfl
  · right
    refine ⟨?_, ?_, ?_, ?_, ?_, Or.inr ⟨by simp [h], ?_, ?_⟩⟩ <;>
      simp [execute_trade, h, openSignalOf, closeSignalOf, PosOK]
  · exact Or.inl (by simp [execute_trade, h])
  · exact Or.inl rfl

theorem exec_step_inv (cfg : BtCfg) (data : List BtRow) (row nxt : BtRow) (m : ℕ)
    (st : BTState)
    (hrow : data[m]? = some row) (hnxt : data[m+1]? = some nxt)
    (hpos : PosOK st.position)
    (hentry : EntryStInv cfg data st)
    (htimerow : st.position ≠ 0 → st.entry_time < row.ts)
    (htr : ∀ t ∈ st.trades, TradeDesc cfg data t) :
    PosOK (execute_trade cfg st row.ts nxt.Open row.signal).position ∧
    EntryStInv cfg data (execute_trade cfg st row.ts nxt.Open row.signal) ∧
    ((execute_trade cfg st row.ts nxt.Open row.signal).position ≠ 0 →
      (execute_trade cfg st row.ts nxt.Open row.signal).entry_time = row.ts ∨
      ((execute_trade cfg st row.ts nxt.Open row.signal).entry_time = st.entry_time ∧
        st.position ≠ 0)) ∧
    (∀ t ∈ (execute_trade cfg st row.ts nxt.Open row.signal).trades,
      TradeDesc cfg data t) ∧
    (execute_trade cfg st row.ts nxt.Open row.signal).trades.length ≤
      st.trades.length + 1 := by
  rcases execute_trade_behavior cfg st row.ts nxt.Open row.signal hpos with
    heq | ⟨hp, hne, het, hep, hop, htrd⟩
  · rw [heq]
    exact ⟨hpos, hentry, fun hne0 => Or.inr ⟨rfl, hne0⟩, htr, by omega⟩
  · refine ⟨hp, ?_, fun _ => Or.inl het, ?_, ?_⟩
    · intro _
      refine ⟨m, row, nxt, hrow, hnxt, hop, het, ?_⟩
      rw [hep, ← hop]
    · rcases htrd with hsame | ⟨hne0, hclose, p, happ⟩
      · rw [hsame]; exact htr
      · rw [happ]
        intro t ht
        rcases List.mem_append.mp ht with hin | hnew
        · exact htr t hin
        · rw [List.mem_singleton.mp hnew]
          obtain ⟨j, rj, rj1, hj, hj1, hsig, hti, hpr⟩ := hentry hne0
          exact ⟨⟨j, rj, rj1, hj, hj1, hsig, hti, hpr⟩,
                 ⟨m, row, nxt, hrow, hnxt, hclose, rfl, by rw [hclose]⟩,
                 htimerow hne0⟩
    · rcases htrd with hsame | ⟨hne0, hclose, p, happ⟩
      · rw [hsame]; omega
      · rw [happ]; simp

theorem runLoop_spec (cfg : BtCfg) (data : List BtRow) :
    ∀ (rows : List BtRow) (m : ℕ) (st : BTState),
      (∀ i, rows[i]? = data[m + i]?) →
      List.Pairwise (fun a b => a.ts < b.ts) rows →
      PosOK st.position →
      EntryStInv cfg data st →
      (st.position ≠ 0 → ∀ r ∈ rows, st.entry_time < r.ts) →
      (∀ t ∈ st.trades, TradeDesc cfg data t) →
      PosOK (runLoop cfg st rows).1.position ∧
      EntryStInv cfg data (runLoop cfg st rows).1 ∧
      ((runLoop cfg st rows).1.position ≠ 0 →
        ∀ rl ∈ rows.getLast?, (runLoop cfg st rows).1.entry_time < rl.ts) ∧
      (∀ t ∈ (runLoop cfg st rows).1.trades, TradeDesc cfg data t) ∧
      (runLoop cfg st rows).1.trades.length ≤ st.trades.length + (rows.length - 1) := by
  intro rows
  induction rows with
  | nil =>
    intro m st hidx hsorted hpos hentry htime htr
    refine ⟨hpos, hentry, ?_, htr, ?_⟩
    · intro _ rl hrl
      simp at hrl
    · simp [runLoop]
  | cons row rest ih =>
    intro m st hidx hsorted hpos hentry htime htr
    have hrow : data[m]? = some row := by simpa using (hidx 0).symm
    have hidx' : ∀ i, rest[i]? = data[m + 1 + i]? := by
      intro i
      have h := hidx (i + 1)
      simpa [Nat.add_assoc, Nat.add_comm 1 i] using h
    have hsorted' : List.Pairwise (fun a b => a.ts < b.ts) rest :=
      (List.pairwise_cons.mp hsorted).2
    have hhead : ∀ r ∈ rest, row.ts < r.ts := (List.pairwise_cons.mp hsorted).1
    cases rest with
    | nil =>
      have hres : (runLoop cfg st [row]).1 = st := rfl
      rw [hres]
      refine ⟨hpos, hentry, ?_, htr, ?_⟩
      · intro hne rl hrl
        have heq : row = rl := by simpa using hrl
        subst heq
        exact htime hne row (List.mem_singleton_self row)
      · simp
    | cons nxt rest2 =>
      have hnxt : data[m+1]? = some nxt := by simpa using (hidx' 0).symm
      by_cases hsig : row.signal = Signal.HOLD
      · have hres : (runLoop cfg st (row :: nxt :: rest2)).1 =
            (runLoop cfg st (nxt :: rest2)).1 := by
          simp [runLoop, stepExec, nextOpen, hsig]
        rw [hres]
        have hmain := ih (m + 1) st hidx' hsorted' hpos hentry
          (fun hne r hr => htime hne r (List.mem_cons_of_mem row hr)) htr
        refine ⟨hmain.1, hmain.2.1, ?_, hmain.2.2.2.1, ?_⟩
        · intro hne rl hrl
          exact hmain.2.2.1 hne rl (by rwa [List.getLast?_cons_cons] at hrl)
        · have := hmain.2.2.2.2
          simp only [List.length_cons] at *
          omega
      · have hres : (runLoop cfg st (row :: nxt :: rest2)).1 =
            (runLoop cfg (execute_trade cfg st row.ts nxt.Open row.signal)
              (nxt :: rest2)).1 := by
          cases hs2 : row.signal <;> simp [runLoop, stepExec, nextOpen, hs2] <;> simp_all
        rw [hres]
        have hstep := exec_step_inv cfg data row nxt m st hrow hnxt hpos hentry
          (fun hne => htime hne row (List.mem_cons_self row _)) htr
        have hmain := ih (m + 1) (execute_trade cfg st row.ts nxt.Open row.signal)
          hidx' hsorted' hstep.1 hstep.2.1
          (by
            intro hne r hr
            rcases hstep.2.2.1 hne with hnew | ⟨hold, hne0⟩
            · rw [hnew]
              exact hhead r hr
            · rw [hold]
              exact htime hne0 r (List.mem_cons_of_mem row hr))
          hstep.2.2.2.1
        refine ⟨hmain.1, hmain.2.1, ?_, hmain.2.2.2.1, ?_⟩
        · intro hne rl hrl
          exact hmain.2.2.1 hne rl (by rwa [List.getLast?_cons_cons] at hrl)
        · have h1 := hmain.2.2.2.2
          have h2 := hstep.2.2.2.2
          simp only [List.length_cons] at *
          omega

/-- C7: over any chronologically ordered input, the ledger never holds more
trades than there are bars, and every trade exits strictly after it
entered. -/
theorem C7_thm (cfg : BtCfg) (data : List BtRow)
    (hsorted : List.Pairwise (fun a b => a.ts < b.ts) data) :
    (runState cfg data).trades.length ≤ data.length ∧
    ∀ t ∈ (runState cfg data).trades, t.entry_time < t.exit_time := by
  cases data with
  | nil => constructor <;> simp [runState, run_backtest, reset]
  | cons r0 rest =>
    have hmain := runLoop_spec cfg (r0 :: rest) (r0 :: rest) 0 (reset cfg)
      (fun i => by simp) hsorted (Or.inl rfl)
      (fun h => absurd rfl h) (fun h => absurd rfl h)
      (by intro t ht; simp [reset] at ht)
    have hrs : runState cfg (r0 :: rest) =
        forceClose cfg (runLoop cfg (reset cfg) (r0 :: rest)).1
          (List.getLast (r0 :: rest) (List.cons_ne_nil r0 rest)) := by
      simp [runState, run_backtest]
    rw [hrs]
    have hlen := hmain.2.2.2.2
    have hr0len : (reset cfg).trades.length = 0 := rfl
    rw [hr0len] at hlen
    simp only [List.length_cons] at hlen
    unfold forceClose
    by_cases hp : (runLoop cfg (reset cfg) (r0 :: rest)).1.position ≠ 0
    · rw [if_pos hp]
      constructor
      · simp only [List.length_append, List.length_cons, List.length_nil]
        omega
      · intro t ht
        rcases List.mem_append.mp ht with hin | hnew
        · exact (hmain.2.2.2.1 t hin).2.2
        · rw [List.mem_singleton.mp hnew]
          have hmem : List.getLast (r0 :: rest) (List.cons_ne_nil r0 rest) ∈
              (r0 :: rest).getLast? := by
            rw [List.getLast?_eq_getLast (r0 :: rest) (List.cons_ne_nil r0 rest)]
            rfl
          exact hmain.2.2.1 hp _ hmem
    · rw [if_neg hp]
      constructor
      · simp only [List.length_cons]
        omega
      · intro t ht
        exact (hmain.2.2.2.1 t ht).2.2

/-- C7 witness: the three-bar reversal scenario has two trades on three bars,
each exiting after entering. -/
theorem C7_witness :
    List.Pairwise (fun a b => a.ts < b.ts) data1 ∧
    ((runState cfg1 data1).trades.length ≤ data1.length ∧
     ∀ t ∈ (runState cfg1 data1).trades, t.entry_time < t.exit_time) :=
  ⟨by norm_num [data1, scenBars],
   C7_thm cfg1 data1 (by norm_num [data1, scenBars])⟩

/-- C10: every recorded trade enters at the timestamp of the bar carrying the
opening signal, at the following bar's open adjusted by slippage; and every
trade recorded by the main loop (a reversal close) also exits at the
timestamp of the bar carrying the closing signal, at the following bar's open
adjusted by slippage — so each signal-produced timestamp precedes its fill
bar by one bar. -/
theorem C10_thm (cfg : BtCfg) (data : List BtRow)
    (hsorted : List.Pairwise (fun a b => a.ts < b.ts) data) :
    (∀ t ∈ (loopState cfg data).trades, EntryDesc cfg data t ∧ ExitDesc cfg data t) ∧
    (∀ t ∈ (runState cfg data).trades, EntryDesc cfg data t) := by
  cases data with
  | nil =>
    constructor <;> intro t ht <;>
      simp [loopState, runLoop, runState, run_backtest, reset] at ht
  | cons r0 rest =>
    have hmain := runLoop_spec cfg (r0 :: rest) (r0 :: rest) 0 (reset cfg)
      (fun i => by simp) hsorted (Or.inl rfl)
      (fun h => absurd rfl h) (fun h => absurd rfl h)
      (by intro t ht; simp [reset] at ht)
    constructor
    · intro t ht
      simp only [loopState] at ht
      exact ⟨(hmain.2.2.2.1 t ht).1, (hmain.2.2.2.1 t ht).2.1⟩
    · intro t ht
      have hrs : runState cfg (r0 :: rest) =
          forceClose cfg (runLoop cfg (reset cfg) (r0 :: rest)).1
            (List.getLast (r0 :: rest) (List.cons_ne_nil r0 rest)) := by
        simp [runState, run_backtest]
      rw [hrs] at ht
      unfold forceClose at ht
      by_cases hp : (runLoop cfg (reset cfg) (r0 :: rest)).1.position ≠ 0
      · rw [if_pos hp] at ht
        rcases List.mem_append.mp ht with hin | hnew
        · exact (hmain.2.2.2.1 t hin).1
        · rw [List.mem_singleton.mp hnew]
          obtain ⟨j, rj, rj1, hj, hj1, hsig, hti, hpr⟩ := hmain.2.1 hp
          exact ⟨j, rj, rj1, hj, hj1, hsig, hti, hpr⟩
      · rw [if_neg hp] at ht
        exact (hmain.2.2.2.1 t ht).1

/-- C10 witness: the reversal scenario, whose loop trade and forced trade
both satisfy the descriptors. -/
theorem C10_witness :
    List.Pairwise (fun a b => a.ts < b.ts) data1 ∧
    ((∀ t ∈ (loopState cfg1 data1).trades, EntryDesc cfg1 data1 t ∧ ExitDesc cfg1 data1 t) ∧
     (∀ t ∈ (runState cfg1 data1).trades, EntryDesc cfg1 data1 t)) :=
  ⟨by norm_num [data1, scenBars],
   C10_thm cfg1 data1 (by norm_num [data1, scenBars])⟩

theorem nextOpen_setLastSignal (s : Signal) (l : List BtRow) :
    nextOpen (setLastSignal s l) = nextOpen l := by
  cases l with
  | nil => rfl
  | cons r rest =>
    cases rest with
    | nil => rfl
    | cons r2 rest2 => rfl

theorem runLoop_cons_eq (cfg : BtCfg) (st : BTState) (row : BtRow) (rest : List BtRow) :
    runLoop cfg st (row :: rest) =
      ((runLoop cfg (stepExec cfg st row rest) rest).1,
       mkEquityPoint st row :: (runLoop cfg (stepExec cfg st row rest) rest).2) := rfl

theorem stepExec_setLastSignal (cfg : BtCfg) (s : Signal) (st : BTState) (row : BtRow)
    (rest : List BtRow) :
    stepExec cfg st row (setLastSignal s rest) = stepExec cfg st row rest := by
  unfold stepExec
  rw [nextOpen_setLastSignal]

theorem runLoop_setLastSignal (cfg : BtCfg) (s : Signal) :
    ∀ (rows : List BtRow) (st : BTState),
      runLoop cfg st (setLastSignal s rows) = runLoop cfg st rows
  | [], _ => rfl
  | [r], st => rfl
  | r :: r2 :: rest, st => by
    show runLoop cfg st (r :: setLastSignal s (r2 :: rest)) = _
    rw [runLoop_cons_eq, runLoop_cons_eq, stepExec_setLastSignal,
      runLoop_setLastSignal cfg s (r2 :: rest)]

theorem getLast?_setLastSignal (s : Signal) :
    ∀ (l : List BtRow),
      (setLastSignal s l).getLast? = l.getLast?.map fun r => { r with signal := s }
  | [] => rfl
  | [_] => rfl
  | r :: r2 :: rest => by
    show (r :: setLastSignal s (r2 :: rest)).getLast? = _
    cases hrest : setLastSignal s (r2 :: rest) with
    | nil => cases rest <;> simp [setLastSignal] at hrest
    | cons x xs =>
      rw [List.getLast?_cons_cons, ← hrest, getLast?_setLastSignal s (r2 :: rest),
        List.getLast?_cons_cons]

theorem forceClose_signal_irrelevant (cfg : BtCfg) (st : BTState) (s : Signal) (r : BtRow) :
    forceClose cfg st { r with signal := s } = forceClose cfg st r := rfl

theorem setLastSignal_cons_ne_nil (s : Signal) (r0 : BtRow) (rest : List BtRow) :
    setLastSignal s (r0 :: rest) ≠ [] := by
  cases rest with
  | nil => simp [setLastSignal]
  | cons r2 rest2 => simp [setLastSignal]

theorem getLast_setLastSignal (s : Signal) (r0 : BtRow) (rest : List BtRow)
    (h : setLastSignal s (r0 :: rest) ≠ []) :
    (setLastSignal s (r0 :: rest)).getLast h = { lastRow r0 rest with signal := s } := by
  have h1 := getLast?_setLastSignal s (r0 :: rest)
  rw [List.getLast?_eq_getLast _ h,
    List.getLast?_eq_getLast (r0 :: rest) (List.cons_ne_nil r0 rest)] at h1
  simpa [lastRow] using h1

theorem run_backtest_setLastSignal (cfg : BtCfg) (s : Signal) (r0 : BtRow)
    (rest : List BtRow) :
    run_backtest cfg (setLastSignal s (r0 :: rest)) = run_backtest cfg (r0 :: rest) := by
  obtain ⟨x, xs, hx⟩ : ∃ x xs, setLastSignal s (r0 :: rest) = x :: xs := by
    cases rest with
    | nil => exact ⟨_, _, rfl⟩
    | cons r2 rest2 => exact ⟨_, _, rfl⟩
  rw [hx]
  simp only [run_backtest]
  have hloop : runLoop cfg (reset cfg) (x :: xs) =
      runLoop cfg (reset cfg) (r0 :: rest) := by
    rw [← hx]
    exact runLoop_setLastSignal cfg s (r0 :: rest) (reset cfg)
  have hlast : (x :: xs).getLast (List.cons_ne_nil x xs) =
      { lastRow r0 rest with signal := s } := by
    rw [← getLast_setLastSignal s r0 rest (setLastSignal_cons_ne_nil s r0 rest)]
    congr 1
    exact hx.symm
  rw [hloop, hlast, forceClose_signal_irrelevant]
  rfl

/-- C4: at series end an open position is force-closed at the last Close with
no slippage (the forced trade exits at `(lastRow r0 rest).Close` itself),
exactly one closing commission is debited, exactly one final trade is
appended, and the position returns to flat; a flat end state is left
untouched; and replacing the final-bar signal by anything, BUY or SELL
included, leaves the whole run unchanged — a signal on the last bar never
opens a position. -/
theorem C4_thm (cfg : BtCfg) (r0 : BtRow) (rest : List BtRow) :
    ((loopState cfg (r0 :: rest)).position ≠ 0 →
      runState cfg (r0 :: rest) =
        { loopState cfg (r0 :: rest) with
            capital := (loopState cfg (r0 :: rest)).capital +
              calculate_unrealized_pnl (loopState cfg (r0 :: rest))
                (lastRow r0 rest).Close - cfg.commission,
            trades := (loopState cfg (r0 :: rest)).trades ++
              [forcedTrade cfg (loopState cfg (r0 :: rest)) (lastRow r0 rest)],
            position := 0 }) ∧
    ((loopState cfg (r0 :: rest)).position = 0 →
      runState cfg (r0 :: rest) = loopState cfg (r0 :: rest)) ∧
    (∀ s, run_backtest cfg (setLastSignal s (r0 :: rest)) =
      run_backtest cfg (r0 :: rest)) := by
  have hrs : runState cfg (r0 :: rest) =
      forceClose cfg (loopState cfg (r0 :: rest)) (lastRow r0 rest) := by
    simp [runState, run_backtest, loopState, lastRow]
  refine ⟨?_, ?_, fun s => run_backtest_setLastSignal cfg s r0 rest⟩
  · intro hp
    rw [hrs]
    unfold forceClose
    rw [if_pos hp]
  · intro hp
    rw [hrs]
    unfold forceClose
    rw [if_neg (by simp [hp])]

/-- C4 witness: a two-bar run that ends long and is force-closed. -/
theorem C4_witness :
    (loopState cfg1 (r0w :: restw)).position ≠ 0 ∧
    runState cfg1 (r0w :: restw) =
      { loopState cfg1 (r0w :: restw) with
          capital := (loopState cfg1 (r0w :: restw)).capital +
            calculate_unrealized_pnl (loopState cfg1 (r0w :: restw))
              (lastRow r0w restw).Close - cfg1.commission,
          trades := (loopState cfg1 (r0w :: restw)).trades ++
            [forcedTrade cfg1 (loopState cfg1 (r0w :: restw)) (lastRow r0w restw)],
          position := 0 } :=
  ⟨by norm_num [loopState, runLoop, stepExec, nextOpen, execute_trade, calculate_fill_price,
      reset, cfg1, r0w, restw],
   (C4_thm cfg1 r0w restw).1
     (by norm_num [loopState, runLoop, stepExec, nextOpen, execute_trade, calculate_fill_price,
        reset, cfg1, r0w, restw])⟩

/-- C8 witness: an all-HOLD run has a constant, hence non-decreasing, equity
curve and zero max drawdown. -/
theorem C8_witness :
    List.Chain' (· ≤ ·) (totalEquitySeries (runEquity cfg1 dataW8)) ∧
    maxDrawdown (totalEquitySeries (runEquity cfg1 dataW8)) = 0 :=
  ⟨by norm_num [totalEquitySeries, runEquity, run_backtest, runLoop, stepExec, nextOpen,
      mkEquityPoint, calculate_unrealized_pnl, reset, forceClose, cfg1, dataW8],
   (C8_thm cfg1 dataW8).2
     (by norm_num [totalEquitySeries, runEquity, run_backtest, runLoop, stepExec, nextOpen,
        mkEquityPoint, calculate_unrealized_pnl, reset, forceClose, cfg1, dataW8])⟩

end DayTrading
